import Mathlib

/-!
Verification of the photosort media organiser: a shallow embedding of
`src/lib.rs` (the `Summary` accumulator and its rendering) and
`src/main.rs` (date resolution, destination-path planning, placement
decision and the per-entry orchestration loop of `copy_files`).

Filesystem paths are modelled as lists of path components, file contents
as lists of bytes, and the target filesystem as a partial map from paths
to contents.  Per-entry environment outcomes (walk errors, exif reads,
modification-time reads, stat/mkdir/copy successes) are fields of the
entry record, so the orchestration loop is a deterministic fold.
-/

namespace Photosort

/-- One decimal digit `d` (`d < 10`) rendered as its ASCII character, as in
Rust's `to_string` for unsigned integers. -/
def digitChar (d : Nat) : Char := Char.ofNat (48 + d)

/-- Little-endian decimal digits of `n`, with explicit fuel so the
definition is structurally recursive.  With fuel `≥ n` this agrees with
the usual base-10 digit expansion. -/
def natDigitsAux : Nat → Nat → List Nat
  | 0, _ => []
  | f + 1, n => if n = 0 then [] else n % 10 :: natDigitsAux f (n / 10)

/-- Value of a little-endian digit list. -/
def digitsVal : List Nat → Nat
  | [] => 0
  | d :: ds => d + 10 * digitsVal ds

/-- Decimal rendering of a natural number: models Rust's
`u32::to_string` / `Datelike::day().to_string()` (unpadded decimal). -/
def natToString (n : Nat) : String :=
  if n = 0 then "0"
  else String.mk (((natDigitsAux n n).map digitChar).reverse)

/-- Decimal rendering of an integer: models Rust's `i32::to_string`
(`Datelike::year().to_string()`): a leading minus sign for negatives,
unpadded decimal digits otherwise. -/
def intToString (i : Int) : String :=
  if i < 0 then "-" ++ natToString i.natAbs else natToString i.natAbs

/-- Full capitalised English month names, in calendar order; these are the
values of `chrono::Month::name()` for `Month::from_u32(1..=12)`. -/
def MONTH_NAMES : List String :=
  ["January", "February", "March", "April", "May", "June",
   "July", "August", "September", "October", "November", "December"]

/-- Models `Month::from_u32(m).map(|mo| mo.name())`: `some` of the full
English month name for `1 ≤ m ≤ 12`, `none` otherwise (where the source's
`.unwrap()` would panic). -/
def month_name (m : Nat) : Option String :=
  if 1 ≤ m ∧ m ≤ 12 then MONTH_NAMES[m - 1]? else none

/-- A calendar date as carried by `chrono::NaiveDate`: year as `i32`,
month and day ordinals as `u32`. -/
structure Date where
  year : Int
  month : Nat
  day : Nat
  deriving DecidableEq, Repr

/-- Proleptic Gregorian leap-year rule, as used by `chrono`. -/
def isLeapYear (y : Int) : Bool :=
  (y % 4 == 0 && y % 100 != 0) || y % 400 == 0

/-- Number of days of month `m` (1-based) of year `y`; `0` for an invalid
month ordinal. -/
def daysInMonth (y : Int) (m : Nat) : Nat :=
  match m with
  | 1 => 31 | 2 => if isLeapYear y then 29 else 28 | 3 => 31
  | 4 => 30 | 5 => 31 | 6 => 30 | 7 => 31 | 8 => 31
  | 9 => 30 | 10 => 31 | 11 => 30 | 12 => 31
  | _ => 0

/-- Validity of a date, the invariant `chrono::NaiveDate` maintains for
every value it hands out. -/
def Date.valid (d : Date) : Bool :=
  1 ≤ d.month && d.month ≤ 12 && 1 ≤ d.day && d.day ≤ daysInMonth d.year d.month

/-- The run accumulator of `src/lib.rs` (`struct Summary`): six `u32`
counters, the `u64` copied-bytes total, the run duration, and the three
per-classification path lists.  Counters are modelled as `Nat` (a run
increments each by at most one per discovered file, far below `u32`
wrap-around, where the Rust build would panic in debug mode). -/
structure Summary where
  scan_error_count : Nat
  error_count : Nat
  skipped_count : Nat
  duplicate_count : Nat
  exif_error_count : Nat
  copy_count : Nat
  copied_bytes : Nat
  duration : Nat
  errored_files : List String
  duplicate_files : List String
  exif_errored_files : List String
  deriving DecidableEq, Repr

/-- `Summary::init()` — `Default::default()`: all counters zero, all
lists empty. -/
def Summary.init : Summary :=
  ⟨0, 0, 0, 0, 0, 0, 0, 0, [], [], []⟩

/-- `Summary::mark_scan_error`. -/
def Summary.mark_scan_error (s : Summary) : Summary :=
  { s with scan_error_count := s.scan_error_count + 1 }

/-- `Summary::mark_error`: bump the counter and push the path. -/
def Summary.mark_error (s : Summary) (path : String) : Summary :=
  { s with error_count := s.error_count + 1
           errored_files := s.errored_files ++ [path] }

/-- `Summary::mark_skipped`. -/
def Summary.mark_skipped (s : Summary) : Summary :=
  { s with skipped_count := s.skipped_count + 1 }

/-- `Summary::mark_duplicate`: bump the counter and push the path. -/
def Summary.mark_duplicate (s : Summary) (path : String) : Summary :=
  { s with duplicate_count := s.duplicate_count + 1
           duplicate_files := s.duplicate_files ++ [path] }

/-- `Summary::mark_exif_error`: bump the counter and push the path. -/
def Summary.mark_exif_error (s : Summary) (path : String) : Summary :=
  { s with exif_error_count := s.exif_error_count + 1
           exif_errored_files := s.exif_errored_files ++ [path] }

/-- `Summary::mark_copied`: bump the counter and add the byte count. -/
def Summary.mark_copied (s : Summary) (len : Nat) : Summary :=
  { s with copy_count := s.copy_count + 1
           copied_bytes := s.copied_bytes + len }

/-- `Summary::set_duration`. -/
def Summary.set_duration (s : Summary) (d : Nat) : Summary :=
  { s with duration := d }

/-- Sum of the six classification counters; each `mark_*` call adds
exactly one to it. -/
def Summary.totalMarks (s : Summary) : Nat :=
  s.scan_error_count + s.error_count + s.skipped_count +
    s.duplicate_count + s.exif_error_count + s.copy_count

/-- The counter/list coupling the accumulator maintains: each counted
path-carrying classification counts exactly its list. -/
def Summary.invariants (s : Summary) : Prop :=
  s.error_count = s.errored_files.length ∧
    s.duplicate_count = s.duplicate_files.length ∧
    s.exif_error_count = s.exif_errored_files.length

/-- One line of the report built by `Summary::display`, abstracting the
literal English text and external byte/duration formatting but keeping
each line's data content and which block it belongs to. -/
inductive Line where
  /-- the `Completed in {duration}` line -/
  | completed (duration : Nat)
  /-- the `Copied {copy_count} files totalling {copied_bytes}` line -/
  | copied (count : Nat) (bytes : Nat)
  /-- the `Skipped copying {skipped_count} files ...` line -/
  | skippedHeader (count : Nat)
  /-- the `Error reading the exif data for {exif_error_count} files ...` line -/
  | exifHeader (count : Nat)
  /-- a path printed under the exif-error block -/
  | exifPath (path : String)
  /-- the `Skipped copying {duplicate_count} files ... different size` line -/
  | dupHeader (count : Nat)
  /-- a path printed under the duplicate block -/
  | dupPath (path : String)
  /-- the `Failed to scan {scan_error_count} files.` line -/
  | scanHeader (count : Nat)
  /-- the `Failed to copy {error_count} files ...` line -/
  | errHeader (count : Nat)
  /-- a path printed under the copy-error block -/
  | errPath (path : String)
  deriving DecidableEq, Repr

/-- `Summary::display`, line by line in source order: the duration line
and the copied line are written unconditionally; each of the remaining
five blocks is written only when its counter is positive, the three
path-carrying blocks listing their paths after the header. -/
def Summary.displayLines (s : Summary) : List Line :=
  [Line.completed s.duration, Line.copied s.copy_count s.copied_bytes]
    ++ (if s.skipped_count > 0 then [Line.skippedHeader s.skipped_count] else [])
    ++ (if s.exif_error_count > 0 then
          Line.exifHeader s.exif_error_count :: s.exif_errored_files.map Line.exifPath
        else [])
    ++ (if s.duplicate_count > 0 then
          Line.dupHeader s.duplicate_count :: s.duplicate_files.map Line.dupPath
        else [])
    ++ (if s.scan_error_count > 0 then [Line.scanHeader s.scan_error_count] else [])
    ++ (if s.error_count > 0 then
          Line.errHeader s.error_count :: s.errored_files.map Line.errPath
        else [])

/-- `static EXIF_COMPATIBLE_EXTENSIONS: [&str; 2] = ["jpg", "jpeg"]`. -/
def EXIF_COMPATIBLE_EXTENSIONS : List String := ["jpg", "jpeg"]

/-- Rust's `to_ascii_lowercase`: lower-case the ASCII letters `A`–`Z`
only, leaving every other character unchanged. -/
def asciiLowercase (s : String) : String :=
  String.mk (s.data.map fun c =>
    if 65 ≤ c.toNat ∧ c.toNat ≤ 90 then Char.ofNat (c.toNat + 32) else c)

/-- `exif_compatible_extension`: the path has an extension and its
ASCII-lower-cased form is one of the compatible extensions. -/
def exif_compatible_extension (ext : Option String) : Bool :=
  match ext with
  | none => false
  | some x => EXIF_COMPATIBLE_EXTENSIONS.any fun e => e == asciiLowercase x

/-- One discovered regular file, together with the outcomes of the
environment interactions the loop body performs on it:
`exifDate` is the result of `get_date_from_exif` (`none` for any of its
failure modes: open failure, unparsable container, missing
`DateTimeOriginal` field, unparsable field value); `mtimeDate` is the
result of reading and converting the filesystem modification time
(`none` when that read fails, the hard error of `get_date_from_file`);
`srcLenOk`/`targetStatOk` are the success of the two size `stat`s in the
placement check, `mkdirOk`/`copyOk` the success of `create_dir_all` and
`fs::copy`.  `content` is the source file's bytes (its length is the
source's byte length). -/
structure FileEntry where
  path : String
  fileName : String
  ext : Option String
  exifDate : Option Date
  mtimeDate : Option Date
  srcLenOk : Bool
  targetStatOk : Bool
  mkdirOk : Bool
  copyOk : Bool
  content : List Nat
  deriving DecidableEq, Repr

/-- One item yielded by the `WalkDir` iteration: a walk error, a
directory entry, or a regular file entry. -/
inductive Event where
  | scanError
  | dirEntry
  | fileEntry (e : FileEntry)
  deriving DecidableEq, Repr

/-- `get_date_from_exif`, abstracted to the outcome recorded on the
entry (the binary exif parse itself is the external `exif` crate). -/
def get_date_from_exif (e : FileEntry) : Option Date := e.exifDate

/-- `get_date_from_file`: the modification-time date, `none` when the
metadata or modified-time read fails. -/
def get_date_from_file (e : FileEntry) : Option Date := e.mtimeDate

/-- `get_file_date`: try exif only for exif-compatible extensions; on
any exif failure (a logged warning) fall through to the
modification-time fallback. -/
def get_file_date (e : FileEntry) : Option Date :=
  if exif_compatible_extension e.ext then
    match get_date_from_exif e with
    | some date => some date
    | none => get_date_from_file e
  else get_date_from_file e

/-- `get_target_path`: push the target root, the decimal year, the full
month name (`Month::from_u32(..).unwrap()` — `none` models the panic on
an out-of-range month ordinal), the decimal day, and the file name.
Paths are lists of components. -/
def get_target_path (fileName : String) (d : Date) (root : List String) :
    Option (List String) :=
  match month_name d.month with
  | some mn => some (root ++ [intToString d.year, mn, natToString d.day, fileName])
  | none => none

/-- `get_target_path` as called in the loop, on a directory entry: only
the entry's `file_name()` is consulted. -/
def get_target_path_entry (e : FileEntry) (d : Date) (root : List String) :
    Option (List String) :=
  get_target_path e.fileName d root

/-- The target filesystem: contents (byte lists) indexed by
component-list paths; `none` = no file at that path. -/
def Fs : Type := List String → Option (List Nat)

/-- The body of the `copy_files` loop for one walk event, threading the
target filesystem and the summary.  `none` models a panic (only the
month `unwrap` in `get_target_path`).  Branches in source order:
walk error → `mark_scan_error`; directory → skip; date-resolution
failure → `mark_error`; destination present → the two size `stat`s
(failure → `mark_error`), then equal sizes → `mark_skipped`, different
sizes → `mark_duplicate`; destination absent → `create_dir_all` then
`fs::copy` (failure of either → `mark_error`), success → the file is
written at the destination and `mark_copied` records the byte count. -/
def processEntry (root : List String) (st : Fs × Summary) :
    Event → Option (Fs × Summary)
  | Event.scanError => some (st.1, st.2.mark_scan_error)
  | Event.dirEntry => some st
  | Event.fileEntry e =>
    match get_file_date e with
    | none => some (st.1, st.2.mark_error e.path)
    | some d =>
      match get_target_path_entry e d root with
      | none => none
      | some target =>
        match st.1 target with
        | some tcontent =>
          if e.srcLenOk then
            if e.targetStatOk then
              if e.content.length = tcontent.length then
                some (st.1, st.2.mark_skipped)
              else
                some (st.1, st.2.mark_duplicate e.path)
            else some (st.1, st.2.mark_error e.path)
          else some (st.1, st.2.mark_error e.path)
        | none =>
          if e.mkdirOk then
            if e.copyOk then
              some (fun p => if p = target then some e.content else st.1 p,
                    st.2.mark_copied e.content.length)
            else some (st.1, st.2.mark_error e.path)
          else some (st.1, st.2.mark_error e.path)

/-- The `for entry in WalkDir::new(..)` loop: process the events in
order, aborting only on a panic. -/
def runEvents (root : List String) (st : Fs × Summary) :
    List Event → Option (Fs × Summary)
  | [] => some st
  | ev :: rest =>
    match processEntry root st ev with
    | some st' => runEvents root st' rest
    | none => none

/-- `copy_files`: run the walk from a fresh summary over the initial
target filesystem, then `set_duration` with the elapsed time. -/
def copy_files (root : List String) (elapsed : Nat) (events : List Event)
    (fs : Fs) : Option (Fs × Summary) :=
  (runEvents root (fs, Summary.init) events).map fun st =>
    (st.1, st.2.set_duration elapsed)

/-- Numeric value of an ASCII digit character (left inverse of
`digitChar` on digits). -/
def charVal (c : Char) : Nat := c.toNat - 48

/-- Parse back the decimal rendering of a natural number. -/
def parseNat (s : String) : Nat :=
  digitsVal ((s.data.map charVal).reverse)

/-- Parse back the decimal rendering of an integer. -/
def parseInt (s : String) : Int :=
  if s.data.head? = some (Char.ofNat 45) then
    -(parseNat (String.mk s.data.tail))
  else parseNat s

theorem digitsVal_natDigitsAux (f : Nat) :
    ∀ n : Nat, n ≤ f → digitsVal (natDigitsAux f n) = n := by
  induction f with
  | zero => intro n hn; interval_cases n; rfl
  | succ f ih =>
    intro n hn
    unfold natDigitsAux
    by_cases hz : n = 0
    · simp [hz, digitsVal]
    · rw [if_neg hz]
      have hdiv : n / 10 ≤ f := by
        have : n / 10 < n := Nat.div_lt_self (Nat.pos_of_ne_zero hz) (by omega)
        omega
      simp only [digitsVal, ih _ hdiv]
      omega

theorem natDigitsAux_lt (f : Nat) :
    ∀ n : Nat, ∀ d ∈ natDigitsAux f n, d < 10 := by
  induction f with
  | zero => intro n d hd; simp [natDigitsAux] at hd
  | succ f ih =>
    intro n d hd
    unfold natDigitsAux at hd
    by_cases hz : n = 0
    · simp [hz] at hd
    · rw [if_neg hz] at hd
      rcases List.mem_cons.mp hd with h | h
      · omega
      · exact ih _ d h

theorem charVal_digitChar : ∀ d, d < 10 → charVal (digitChar d) = d := by decide

theorem digitChar_ge : ∀ d, d < 10 → 48 ≤ (digitChar d).toNat := by decide

theorem digitChar_le : ∀ d, d < 10 → (digitChar d).toNat ≤ 57 := by decide

/-- `parseNat` is a left inverse of the decimal rendering. -/
theorem parseNat_natToString (n : Nat) : parseNat (natToString n) = n := by
  unfold natToString
  by_cases hz : n = 0
  · subst hz; rfl
  · rw [if_neg hz]
    show digitsVal (((((natDigitsAux n n).map digitChar).reverse).map charVal).reverse) = n
    rw [List.map_reverse, List.reverse_reverse, List.map_map]
    have hcongr : (natDigitsAux n n).map (charVal ∘ digitChar) = natDigitsAux n n := by
      have := List.map_congr_left (l := natDigitsAux n n)
        (f := charVal ∘ digitChar) (g := id)
        (fun d hd => charVal_digitChar d (natDigitsAux_lt n n d hd))
      simpa using this
    rw [hcongr]
    exact digitsVal_natDigitsAux n n le_rfl

/-- The decimal rendering of a natural number is injective. -/
theorem natToString_inj {m n : Nat} (h : natToString m = natToString n) : m = n := by
  have := congrArg parseNat h
  rwa [parseNat_natToString, parseNat_natToString] at this

/-- Every character of the decimal rendering is an ASCII digit. -/
theorem natToString_data_digits (n : Nat) :
    ∀ c ∈ (natToString n).data, 48 ≤ c.toNat ∧ c.toNat ≤ 57 := by
  unfold natToString
  by_cases hz : n = 0
  · rw [if_pos hz]; decide
  · rw [if_neg hz]
    intro c hc
    have hc' : c ∈ ((natDigitsAux n n).map digitChar).reverse := hc
    rw [List.mem_reverse] at hc'
    obtain ⟨d, hd, rfl⟩ := List.mem_map.mp hc'
    exact ⟨digitChar_ge d (natDigitsAux_lt n n d hd),
           digitChar_le d (natDigitsAux_lt n n d hd)⟩

/-- `parseInt` is a left inverse of the integer decimal rendering. -/
theorem parseInt_intToString (i : Int) : parseInt (intToString i) = i := by
  unfold intToString
  by_cases hneg : i < 0
  · rw [if_pos hneg]
    unfold parseInt
    have hdata : ("-" ++ natToString i.natAbs).data =
        Char.ofNat 45 :: (natToString i.natAbs).data := rfl
    rw [hdata]
    have hcond : (Char.ofNat 45 :: (natToString i.natAbs).data).head? =
        some (Char.ofNat 45) := rfl
    rw [if_pos hcond]
    have htail : String.mk (Char.ofNat 45 :: (natToString i.natAbs).data).tail =
        natToString i.natAbs := rfl
    rw [htail, parseNat_natToString]
    omega
  · rw [if_neg hneg]
    unfold parseInt
    have hhead : ¬((natToString i.natAbs).data.head? = some (Char.ofNat 45)) := by
      intro hcontra
      have hmem : Char.ofNat 45 ∈ (natToString i.natAbs).data :=
        List.mem_of_mem_head? hcontra
      have := natToString_data_digits i.natAbs _ hmem
      revert this; decide
    rw [if_neg hhead, parseNat_natToString]
    omega

/-- The integer decimal rendering is injective. -/
theorem intToString_inj {i j : Int} (h : intToString i = intToString j) : i = j := by
  have := congrArg parseInt h
  rwa [parseInt_intToString, parseInt_intToString] at this

/-- A month ordinal in `1..=12` always has a name (the source's
`unwrap` cannot panic there). -/
theorem month_name_isSome {m : Nat} (h1 : 1 ≤ m) (h2 : m ≤ 12) :
    (month_name m).isSome := by
  unfold month_name
  rw [if_pos ⟨h1, h2⟩]
  have hlen : MONTH_NAMES.length = 12 := rfl
  have : m - 1 < MONTH_NAMES.length := by omega
  simp [List.getElem?_eq_getElem this]

/-- Distinct month ordinals in range have distinct names. -/
theorem month_name_inj {m₁ m₂ : Nat} {s : String}
    (h₁ : month_name m₁ = some s) (h₂ : month_name m₂ = some s) : m₁ = m₂ := by
  unfold month_name at h₁ h₂
  by_cases hc₁ : 1 ≤ m₁ ∧ m₁ ≤ 12
  · by_cases hc₂ : 1 ≤ m₂ ∧ m₂ ≤ 12
    · rw [if_pos hc₁] at h₁
      rw [if_pos hc₂] at h₂
      have hlen : MONTH_NAMES.length = 12 := rfl
      have hbound : m₁ - 1 < MONTH_NAMES.length := by omega
      have hnodup : MONTH_NAMES.Nodup := by decide
      have := List.getElem?_inj hbound hnodup (h₁.trans h₂.symm)
      omega
    · rw [if_neg hc₂] at h₂; exact absurd h₂ (by simp)
  · rw [if_neg hc₁] at h₁; exact absurd h₁ (by simp)

/-- A walk event that leaves a record in the summary (everything except
a directory entry, which the loop skips). -/
def eventRecorded : Event → Bool
  | Event.dirEntry => false
  | _ => true

/-- The month ordinal of the entry's resolved date (if any) is in range,
so the `unwrap` in `get_target_path` does not panic on this entry. -/
def monthOk (e : FileEntry) : Bool :=
  match get_file_date e with
  | some d => (month_name d.month).isSome
  | none => true

theorem processEntry_frame (root : List String) (st st' : Fs × Summary) (ev : Event)
    (h : processEntry root st ev = some st') :
    ∀ p c, st.1 p = some c → st'.1 p = some c := by
  intro p c hp
  cases ev with
  | scanError => cases h; exact hp
  | dirEntry => cases h; exact hp
  | fileEntry e =>
    simp only [processEntry] at h
    cases hfd : get_file_date e with
    | none =>
      simp only [hfd, Option.some.injEq] at h
      subst h; exact hp
    | some d =>
      simp only [hfd] at h
      cases htp : get_target_path_entry e d root with
      | none =>
        simp only [htp] at h
        exact Option.noConfusion h
      | some target =>
        simp only [htp] at h
        cases hfs : st.1 target with
        | some tc =>
          simp only [hfs] at h
          by_cases h1 : e.srcLenOk = true <;>
            by_cases h2 : e.targetStatOk = true <;>
            by_cases h3 : e.content.length = tc.length <;>
              simp only [h1, h2, h3, if_true, if_false, Bool.not_eq_true,
                Bool.false_eq_true, ite_false, ite_true, Option.some.injEq] at h <;>
              subst h <;> exact hp
        | none =>
          simp only [hfs] at h
          have hne : p ≠ target := fun hcontra => by
            rw [hcontra, hfs] at hp; exact Option.noConfusion hp
          by_cases h1 : e.mkdirOk = true <;> by_cases h2 : e.copyOk = true <;>
            simp only [h1, h2, if_true, if_false, Bool.not_eq_true,
              Bool.false_eq_true, ite_false, ite_true, Option.some.injEq] at h <;>
            subst h
          · show (if p = target then some e.content else st.1 p) = some c
            rw [if_neg hne]; exact hp
          · exact hp
          · exact hp
          · exact hp

theorem processEntry_file_shape (root : List String) (st : Fs × Summary) (e : FileEntry)
    (hmonth : monthOk e = true) :
    ∃ st' : Fs × Summary, processEntry root st (Event.fileEntry e) = some st' ∧
      st'.2.totalMarks = st.2.totalMarks + 1 ∧
      st'.2.exif_error_count = st.2.exif_error_count := by
  cases hfd : get_file_date e with
  | none =>
    exact ⟨(st.1, st.2.mark_error e.path), by simp [processEntry, hfd], by
      simp [Summary.totalMarks, Summary.mark_error]; omega, rfl⟩
  | some d =>
    have hsome : (month_name d.month).isSome := by
      unfold monthOk at hmonth
      rw [hfd] at hmonth
      exact hmonth
    obtain ⟨mn, hmn⟩ := Option.isSome_iff_exists.mp hsome
    have htp : get_target_path_entry e d root =
        some (root ++ [intToString d.year, mn, natToString d.day, e.fileName]) := by
      unfold get_target_path_entry get_target_path
      rw [hmn]
    cases hfs : st.1 (root ++ [intToString d.year, mn, natToString d.day, e.fileName]) with
    | some tc =>
      by_cases h1 : e.srcLenOk = true
      · by_cases h2 : e.targetStatOk = true
        · by_cases h3 : e.content.length = tc.length
          · refine ⟨(st.1, st.2.mark_skipped),
              by simp [processEntry, hfd, htp, hfs, h1, h2, h3], ?_, rfl⟩
            simp [Summary.totalMarks, Summary.mark_skipped]; omega
          · refine ⟨(st.1, st.2.mark_duplicate e.path),
              by simp [processEntry, hfd, htp, hfs, h1, h2, h3], ?_, rfl⟩
            simp [Summary.totalMarks, Summary.mark_duplicate]; omega
        · refine ⟨(st.1, st.2.mark_error e.path),
            by simp [processEntry, hfd, htp, hfs, h1, h2], ?_, rfl⟩
          simp [Summary.totalMarks, Summary.mark_error]; omega
      · refine ⟨(st.1, st.2.mark_error e.path),
          by simp [processEntry, hfd, htp, hfs, h1], ?_, rfl⟩
        simp [Summary.totalMarks, Summary.mark_error]; omega
    | none =>
      by_cases h1 : e.mkdirOk = true
      · by_cases h2 : e.copyOk = true
        · refine ⟨(fun p =>
              if p = root ++ [intToString d.year, mn, natToString d.day, e.fileName]
              then some e.content else st.1 p,
              st.2.mark_copied e.content.length),
            by simp [processEntry, hfd, htp, hfs, h1, h2], ?_, rfl⟩
          simp [Summary.totalMarks, Summary.mark_copied]; omega
        · refine ⟨(st.1, st.2.mark_error e.path),
            by simp [processEntry, hfd, htp, hfs, h1, h2], ?_, rfl⟩
          simp [Summary.totalMarks, Summary.mark_error]; omega
      · refine ⟨(st.1, st.2.mark_error e.path),
          by simp [processEntry, hfd, htp, hfs, h1], ?_, rfl⟩
        simp [Summary.totalMarks, Summary.mark_error]; omega

theorem runEvents_total (root : List String) (events : List Event) :
    ∀ st : Fs × Summary,
      (∀ e, Event.fileEntry e ∈ events → monthOk e = true) →
      ∃ st', runEvents root st events = some st' ∧
        st'.2.totalMarks = st.2.totalMarks + (events.filter eventRecorded).length ∧
        st'.2.exif_error_count = st.2.exif_error_count := by
  induction events with
  | nil => intro st _; exact ⟨st, rfl, by simp, rfl⟩
  | cons ev rest ih =>
    intro st hmonth
    cases ev with
    | scanError =>
      obtain ⟨st', hrun, htot, hexif⟩ :=
        ih (st.1, st.2.mark_scan_error) (fun e he => hmonth e (List.mem_cons_of_mem _ he))
      refine ⟨st', hrun, ?_, hexif⟩
      simp only [List.filter, eventRecorded] at htot ⊢
      simp [Summary.totalMarks, Summary.mark_scan_error] at htot
      simp [Summary.totalMarks]
      omega
    | dirEntry =>
      obtain ⟨st', hrun, htot, hexif⟩ :=
        ih st (fun e he => hmonth e (List.mem_cons_of_mem _ he))
      refine ⟨st', hrun, ?_, hexif⟩
      simpa [List.filter, eventRecorded] using htot
    | fileEntry e =>
      obtain ⟨st₁, hstep, hstep_tot, hstep_exif⟩ :=
        processEntry_file_shape root st e (hmonth e (List.mem_cons_self _ _))
      obtain ⟨st', hrun, htot, hexif⟩ :=
        ih st₁ (fun e' he => hmonth e' (List.mem_cons_of_mem _ he))
      refine ⟨st', ?_, ?_, hstep_exif ▸ hexif⟩
      · show (match processEntry root st (Event.fileEntry e) with
          | some st₂ => runEvents root st₂ rest
          | none => none) = some st'
        rw [hstep]
        exact hrun
      · simp only [List.filter, eventRecorded, List.length_cons]
        omega

theorem processEntry_exif_count (root : List String) (st st' : Fs × Summary) (ev : Event)
    (h : processEntry root st ev = some st') :
    st'.2.exif_error_count = st.2.exif_error_count := by
  cases ev with
  | scanError => cases h; rfl
  | dirEntry => cases h; rfl
  | fileEntry e =>
    simp only [processEntry] at h
    cases hfd : get_file_date e with
    | none =>
      simp only [hfd, Option.some.injEq] at h
      subst h; rfl
    | some d =>
      simp only [hfd] at h
      cases htp : get_target_path_entry e d root with
      | none =>
        simp only [htp] at h
        exact Option.noConfusion h
      | some target =>
        simp only [htp] at h
        cases hfs : st.1 target with
        | some tc =>
          simp only [hfs] at h
          by_cases h1 : e.srcLenOk = true <;>
            by_cases h2 : e.targetStatOk = true <;>
            by_cases h3 : e.content.length = tc.length <;>
              simp only [h1, h2, h3, if_true, if_false, Bool.not_eq_true,
                Bool.false_eq_true, ite_false, ite_true, Option.some.injEq] at h <;>
              subst h <;> rfl
        | none =>
          simp only [hfs] at h
          by_cases h1 : e.mkdirOk = true <;> by_cases h2 : e.copyOk = true <;>
            simp only [h1, h2, if_true, if_false, Bool.not_eq_true,
              Bool.false_eq_true, ite_false, ite_true, Option.some.injEq] at h <;>
            subst h <;> rfl

/-- Membership in a block that is emitted only under a counter guard. -/
theorem mem_ite_nil {c : Prop} [Decidable c] {xs : List Line} {l : Line} :
    l ∈ (if c then xs else []) ↔ c ∧ l ∈ xs := by
  split <;> simp_all

/-- C1 fails as frozen: the `Copied {count} files totalling {bytes}` line
is written unconditionally, so a summary whose `copy_count` is zero still
gets a line for the `copy` classification. -/
theorem copied_line_not_suppressed :
    Summary.init.copy_count = 0 ∧
      Line.copied 0 0 ∈ Summary.init.displayLines := by
  constructor
  · rfl
  · simp [Summary.displayLines, Summary.init]

/-- C1 (amended): zero suppression holds for the five guarded
classifications — a zero counter among `skipped`, `exif_error`,
`duplicate`, `scan_error`, `error` emits neither its header line nor any
of its path lines; only the `Copied` line is unconditional. -/
theorem display_zero_suppression (s : Summary) :
    (s.skipped_count = 0 → ∀ n, Line.skippedHeader n ∉ s.displayLines) ∧
    (s.exif_error_count = 0 →
      (∀ n, Line.exifHeader n ∉ s.displayLines) ∧
      (∀ p, Line.exifPath p ∉ s.displayLines)) ∧
    (s.duplicate_count = 0 →
      (∀ n, Line.dupHeader n ∉ s.displayLines) ∧
      (∀ p, Line.dupPath p ∉ s.displayLines)) ∧
    (s.scan_error_count = 0 → ∀ n, Line.scanHeader n ∉ s.displayLines) ∧
    (s.error_count = 0 →
      (∀ n, Line.errHeader n ∉ s.displayLines) ∧
      (∀ p, Line.errPath p ∉ s.displayLines)) := by
  refine ⟨?_, ?_, ?_, ?_, ?_⟩
  · intro hz n
    simp [Summary.displayLines, mem_ite_nil, hz]
  · intro hz
    constructor <;> intro x <;> simp [Summary.displayLines, mem_ite_nil, hz]
  · intro hz
    constructor <;> intro x <;> simp [Summary.displayLines, mem_ite_nil, hz]
  · intro hz n
    simp [Summary.displayLines, mem_ite_nil, hz]
  · intro hz
    constructor <;> intro x <;> simp [Summary.displayLines, mem_ite_nil, hz]

/-- Witness for the amended C1, at a run summary that skipped nothing
but hit two exif errors: no `Skipped` header appears. -/
theorem display_zero_suppression_witness :
    Line.skippedHeader 3 ∉
      (Summary.mk 0 0 0 0 2 4 100 7 [] [] ["a.jpg", "b.jpg"]).displayLines :=
  (display_zero_suppression _).1 rfl 3

/-- C3: the planned destination is
`target_root/year/month-name/day/filename`, built only from the resolved
date, the entry's file name and the target root; entries from different
source sub-directories with the same file name plan the same path. -/
theorem target_path_format (fileName : String) (d : Date) (root : List String)
    (mn : String) (h : month_name d.month = some mn) :
    get_target_path fileName d root =
      some (root ++ [intToString d.year, mn, natToString d.day, fileName]) ∧
    (∀ e₁ e₂ : FileEntry, e₁.fileName = fileName → e₂.fileName = fileName →
      get_target_path_entry e₁ d root = get_target_path_entry e₂ d root) := by
  constructor
  · unfold get_target_path
    simp only [h]
  · intro e₁ e₂ h₁ h₂
    unfold get_target_path_entry
    rw [h₁, h₂]

/-- Witness for C3 at the date 2008-05-30 of the repository's test
fixture. -/
theorem target_path_format_witness :
    get_target_path "photo.jpg" ⟨2008, 5, 30⟩ ["t"] =
      some (["t"] ++ [intToString 2008, "May", natToString 30, "photo.jpg"]) ∧
    (∀ e₁ e₂ : FileEntry, e₁.fileName = "photo.jpg" → e₂.fileName = "photo.jpg" →
      get_target_path_entry e₁ ⟨2008, 5, 30⟩ ["t"] =
        get_target_path_entry e₂ ⟨2008, 5, 30⟩ ["t"]) :=
  target_path_format "photo.jpg" ⟨2008, 5, 30⟩ ["t"] "May" rfl

/-- C4: with a fixed target root and in-range month ordinals, path
planning is pure and injective — two plans agree exactly when the
resolved dates and file names agree. -/
theorem target_path_injective (root : List String) (d₁ d₂ : Date) (n₁ n₂ : String)
    (h₁ : 1 ≤ d₁.month ∧ d₁.month ≤ 12) (h₂ : 1 ≤ d₂.month ∧ d₂.month ≤ 12) :
    get_target_path n₁ d₁ root = get_target_path n₂ d₂ root ↔ (d₁ = d₂ ∧ n₁ = n₂) := by
  obtain ⟨mn₁, hm₁⟩ := Option.isSome_iff_exists.mp (month_name_isSome h₁.1 h₁.2)
  obtain ⟨mn₂, hm₂⟩ := Option.isSome_iff_exists.mp (month_name_isSome h₂.1 h₂.2)
  unfold get_target_path
  simp only [hm₁, hm₂, Option.some.injEq]
  constructor
  · intro h
    have hc := List.append_cancel_left h
    simp only [List.cons.injEq, and_true] at hc
    obtain ⟨hy, hmn, hd, hn⟩ := hc
    have hyear := intToString_inj hy
    have hmonth : d₁.month = d₂.month := by
      rw [← hmn] at hm₂
      exact month_name_inj hm₁ hm₂
    have hday := natToString_inj hd
    refine ⟨?_, hn⟩
    cases d₁; cases d₂
    simp only [Date.mk.injEq]
    exact ⟨hyear, hmonth, hday⟩
  · rintro ⟨rfl, rfl⟩
    rw [hm₁] at hm₂
    cases hm₂
    rfl

/-- Witness for C4: two dates differing only in the day plan different
paths. -/
theorem target_path_injective_witness :
    get_target_path "a.jpg" ⟨2022, 1, 6⟩ [] = get_target_path "a.jpg" ⟨2022, 1, 7⟩ [] ↔
      ((⟨2022, 1, 6⟩ : Date) = ⟨2022, 1, 7⟩ ∧ "a.jpg" = "a.jpg") :=
  target_path_injective [] ⟨2022, 1, 6⟩ ⟨2022, 1, 7⟩ "a.jpg" "a.jpg"
    (by decide) (by decide)

/-- C9: when every date the environment can hand the resolver satisfies
the `chrono::NaiveDate` validity invariant, the resolved date is a valid
Gregorian date whose month ordinal is in `1..=12`, so the month-name
`unwrap` cannot panic and `get_target_path` returns a path. -/
theorem resolver_dates_valid (e : FileEntry) (root : List String)
    (hex : ∀ d, e.exifDate = some d → d.valid = true)
    (hmt : ∀ d, e.mtimeDate = some d → d.valid = true)
    (d : Date) (hd : get_file_date e = some d) :
    d.valid = true ∧ (month_name d.month).isSome = true ∧
      (get_target_path_entry e d root).isSome = true := by
  have hvalid : d.valid = true := by
    unfold get_file_date at hd
    by_cases hc : exif_compatible_extension e.ext = true
    · rw [if_pos hc] at hd
      cases hex_eq : get_date_from_exif e with
      | some d' =>
        simp only [hex_eq, Option.some.injEq] at hd
        subst hd
        exact hex _ hex_eq
      | none =>
        simp only [hex_eq] at hd
        exact hmt _ hd
    · rw [if_neg hc] at hd
      exact hmt _ hd
  have hbounds : 1 ≤ d.month ∧ d.month ≤ 12 := by
    unfold Date.valid at hvalid
    simp only [Bool.and_eq_true, decide_eq_true_eq] at hvalid
    exact ⟨hvalid.1.1.1, hvalid.1.1.2⟩
  have hiso := month_name_isSome hbounds.1 hbounds.2
  refine ⟨hvalid, hiso, ?_⟩
  obtain ⟨mn, hmn⟩ := Option.isSome_iff_exists.mp hiso
  unfold get_target_path_entry get_target_path
  simp only [hmn, Option.isSome_some]

/-- Witness for C9 at the fixture date 2008-05-30 read from exif. -/
theorem resolver_dates_valid_witness :
    Date.valid ⟨2008, 5, 30⟩ = true ∧
      (month_name (Date.month ⟨2008, 5, 30⟩)).isSome = true ∧
      (get_target_path_entry
        ⟨"s/p.jpg", "p.jpg", some "jpg", some ⟨2008, 5, 30⟩, none,
          true, true, true, true, [1, 2]⟩ ⟨2008, 5, 30⟩ ["t"]).isSome = true :=
  resolver_dates_valid
    ⟨"s/p.jpg", "p.jpg", some "jpg", some ⟨2008, 5, 30⟩, none,
      true, true, true, true, [1, 2]⟩ ["t"]
    (fun d hd => by
      simp only [Option.some.injEq] at hd
      subst hd
      decide)
    (fun d hd => by cases hd)
    ⟨2008, 5, 30⟩ rfl

/-- C10: a file with no extension, or an extension other than jpg/jpeg
(case-insensitively), resolves its date straight from the
modification-time fallback — the outcome is independent of any exif
data — and processing such an entry never changes the exif-error
counter. -/
theorem non_image_skips_exif (e : FileEntry)
    (h : e.ext = none ∨
      ∃ x, e.ext = some x ∧ asciiLowercase x ≠ "jpg" ∧ asciiLowercase x ≠ "jpeg") :
    get_file_date e = get_date_from_file e ∧
    (∀ ed : Option Date, get_file_date { e with exifDate := ed } = get_date_from_file e) ∧
    (∀ (root : List String) (fs : Fs) (s : Summary) (st' : Fs × Summary),
      processEntry root (fs, s) (Event.fileEntry e) = some st' →
      st'.2.exif_error_count = s.exif_error_count) := by
  have hcompat : exif_compatible_extension e.ext = false := by
    rcases h with h | ⟨x, hx, h1, h2⟩
    · rw [h]; rfl
    · rw [hx]
      simp only [exif_compatible_extension, EXIF_COMPATIBLE_EXTENSIONS,
        List.any_cons, List.any_nil, Bool.or_false, Bool.or_eq_false_iff,
        beq_eq_false_iff_ne]
      exact ⟨fun hh => h1 hh.symm, fun hh => h2 hh.symm⟩
  refine ⟨?_, ?_, ?_⟩
  · unfold get_file_date
    rw [hcompat]
    simp
  · intro ed
    unfold get_file_date
    show (if exif_compatible_extension e.ext = true then _ else _) = _
    rw [hcompat]
    simp only [Bool.false_eq_true, if_false]
    rfl
  · intro root fs s st' hstep
    exact processEntry_exif_count root (fs, s) st' _ hstep

/-- Witness for C10 on a text file (an upper-case non-image
extension). -/
theorem non_image_skips_exif_witness :
    get_file_date
        ⟨"s/n.TXT", "n.TXT", some "TXT", none, some ⟨2022, 1, 6⟩,
          true, true, true, true, [9]⟩ =
      get_date_from_file
        ⟨"s/n.TXT", "n.TXT", some "TXT", none, some ⟨2022, 1, 6⟩,
          true, true, true, true, [9]⟩ :=
  (non_image_skips_exif _
    (Or.inr ⟨"TXT", rfl, by decide, by decide⟩)).1

/-- C2, evaluated at the failing input: a `.jpg` whose exif read fails
(`exifDate = none`) and whose modification time is 2022-01-06, against an
empty target.  The file *is* dated from modification time and copied to
`t/2022/January/6/a.jpg`, but the run's `exif_error_count` stays `0` and
`exif_errored_files` stays empty: `copy_files` never calls
`Summary::mark_exif_error`, contradicting the claimed increment. -/
theorem exif_failure_never_counted :
    (copy_files ["t"] 0
        [Event.fileEntry
          ⟨"s/a.jpg", "a.jpg", some "jpg", none, some ⟨2022, 1, 6⟩,
            true, true, true, true, [1, 2, 3]⟩]
        (fun _ => none)).map
      (fun st =>
        (st.2.copy_count, st.2.exif_error_count, st.2.exif_errored_files,
          st.1 ["t", "2022", "January", "6", "a.jpg"])) =
    some (1, 0, [], some [1, 2, 3]) := by
  rfl

/-- C5: a destination occupied by a file of the *same byte length* is
never copied over and is counted as skipped — the contents `tcontent`
are arbitrary, only the lengths are compared. -/
theorem same_size_skipped (root : List String) (e : FileEntry) (fs : Fs)
    (s : Summary) (d : Date) (target : List String) (tcontent : List Nat)
    (hd : get_file_date e = some d)
    (htp : get_target_path_entry e d root = some target)
    (hfs : fs target = some tcontent)
    (hsrc : e.srcLenOk = true) (htgt : e.targetStatOk = true)
    (hlen : e.content.length = tcontent.length) :
    processEntry root (fs, s) (Event.fileEntry e) = some (fs, s.mark_skipped) := by
  simp [processEntry, hd, htp, hfs, hsrc, htgt, hlen]

/-- Witness for C5 at the heuristic's boundary: destination bytes
`[9, 9, 9]` differ from source bytes `[1, 2, 3]` but have the same
length, and the entry is still skipped with the filesystem unchanged. -/
theorem same_size_skipped_witness :
    processEntry ["t"]
      (fun p => if p = ["t", "2008", "May", "30", "a.jpg"]
        then some [9, 9, 9] else none, Summary.init)
      (Event.fileEntry
        ⟨"s/a.jpg", "a.jpg", some "jpg", some ⟨2008, 5, 30⟩, none,
          true, true, true, true, [1, 2, 3]⟩) =
    some (fun p => if p = ["t", "2008", "May", "30", "a.jpg"]
        then some [9, 9, 9] else none, Summary.init.mark_skipped) :=
  same_size_skipped ["t"] _ _ Summary.init ⟨2008, 5, 30⟩
    ["t", "2008", "May", "30", "a.jpg"] [9, 9, 9] rfl rfl (by decide) rfl rfl rfl

/-- C6: a destination occupied by a file of a *different* byte length is
refused: the entry is marked duplicate (counter plus path), the
filesystem component of the state is returned unchanged, and — second
conjunct — any file present before the run is still present with the
same contents after any successful run. -/
theorem conflict_refused (root : List String) :
    (∀ (e : FileEntry) (fs : Fs) (s : Summary) (d : Date) (target : List String)
        (tcontent : List Nat),
      get_file_date e = some d →
      get_target_path_entry e d root = some target →
      fs target = some tcontent →
      e.srcLenOk = true → e.targetStatOk = true →
      e.content.length ≠ tcontent.length →
      processEntry root (fs, s) (Event.fileEntry e) =
        some (fs, s.mark_duplicate e.path)) ∧
    (∀ (events : List Event) (st st' : Fs × Summary) (p : List String) (c : List Nat),
      st.1 p = some c → runEvents root st events = some st' → st'.1 p = some c) := by
  constructor
  · intro e fs s d target tcontent hd htp hfs hsrc htgt hlen
    simp [processEntry, hd, htp, hfs, hsrc, htgt, hlen]
  · intro events
    induction events with
    | nil =>
      intro st st' p c hp hrun
      cases hrun
      exact hp
    | cons ev rest ih =>
      intro st st' p c hp hrun
      simp only [runEvents] at hrun
      cases hstep : processEntry root st ev with
      | none =>
        simp only [hstep] at hrun
        exact Option.noConfusion hrun
      | some st₁ =>
        simp only [hstep] at hrun
        exact ih st₁ st' p c (processEntry_frame root st st₁ ev hstep p c hp) hrun

/-- Witness for C6: a same-named, 2-byte destination against a 3-byte
source is marked duplicate and the destination is untouched. -/
theorem conflict_refused_witness :
    processEntry ["t"]
      (fun p => if p = ["t", "2008", "May", "30", "a.jpg"]
        then some [7, 7] else none, Summary.init)
      (Event.fileEntry
        ⟨"s/a.jpg", "a.jpg", some "jpg", some ⟨2008, 5, 30⟩, none,
          true, true, true, true, [1, 2, 3]⟩) =
    some (fun p => if p = ["t", "2008", "May", "30", "a.jpg"]
        then some [7, 7] else none, Summary.init.mark_duplicate "s/a.jpg") :=
  (conflict_refused ["t"]).1 _ _ Summary.init ⟨2008, 5, 30⟩
    ["t", "2008", "May", "30", "a.jpg"] [7, 7] rfl rfl (by decide) rfl rfl (by decide)

/-- C7: as long as every resolvable date has an in-range month ordinal
(the only panic point), the run always completes with a summary, and the
six classification counters account for every non-directory walk event
exactly once — a failing entry is recorded and never aborts the
processing of later entries. -/
theorem run_completes (root : List String) (elapsed : Nat) (events : List Event)
    (fs : Fs) (hmonth : ∀ e, Event.fileEntry e ∈ events → monthOk e = true) :
    ∃ fs' s, copy_files root elapsed events fs = some (fs', s) ∧
      s.totalMarks = (events.filter eventRecorded).length ∧
      s.exif_error_count = 0 := by
  obtain ⟨st', hrun, htot, hexif⟩ := runEvents_total root events (fs, Summary.init) hmonth
  refine ⟨st'.1, st'.2.set_duration elapsed, ?_, ?_, ?_⟩
  · unfold copy_files
    rw [hrun]
    rfl
  · have hdur : (st'.2.set_duration elapsed).totalMarks = st'.2.totalMarks := rfl
    rw [hdur, htot]
    simp [Summary.totalMarks, Summary.init]
  · have hdur : (st'.2.set_duration elapsed).exif_error_count =
        st'.2.exif_error_count := rfl
    rw [hdur, hexif]
    rfl

/-- Witness for C7: a walk error, an entry whose modification time is
unreadable (a per-entry hard error), and a healthy entry; the run still
completes and all three events are accounted for. -/
theorem run_completes_witness :
    ∃ fs' s,
      copy_files ["t"] 5
        [Event.scanError,
          Event.fileEntry
            ⟨"s/bad.txt", "bad.txt", some "txt", none, none,
              true, true, true, true, [1]⟩,
          Event.fileEntry
            ⟨"s/p.jpg", "p.jpg", some "jpg", some ⟨2008, 5, 30⟩, none,
              true, true, true, true, [1, 2]⟩]
        (fun _ => none) = some (fs', s) ∧
      s.totalMarks =
        ([Event.scanError,
          Event.fileEntry
            ⟨"s/bad.txt", "bad.txt", some "txt", none, none,
              true, true, true, true, [1]⟩,
          Event.fileEntry
            ⟨"s/p.jpg", "p.jpg", some "jpg", some ⟨2008, 5, 30⟩, none,
              true, true, true, true, [1, 2]⟩].filter eventRecorded).length ∧
      s.exif_error_count = 0 :=
  run_completes ["t"] 5 _ _ (fun e he => by
    simp only [List.mem_cons, List.not_mem_nil, or_false] at he
    rcases he with he | he | he
    · exact Event.noConfusion he
    · injection he with he
      subst he
      decide
    · injection he with he
      subst he
      decide)

/-- C8: every `mark_*` operation adds exactly one to the six-counter
total, bumps its own counter by one (and `mark_copied` adds the byte
length), appends at most one path to its own list, leaves every counter
and list monotonically extended, and preserves the counter/list-length
invariants. -/
theorem marks_append_only (s : Summary) (p : String) (len : Nat) :
    ((s.mark_scan_error).totalMarks = s.totalMarks + 1 ∧
      (s.mark_error p).totalMarks = s.totalMarks + 1 ∧
      (s.mark_skipped).totalMarks = s.totalMarks + 1 ∧
      (s.mark_duplicate p).totalMarks = s.totalMarks + 1 ∧
      (s.mark_exif_error p).totalMarks = s.totalMarks + 1 ∧
      (s.mark_copied len).totalMarks = s.totalMarks + 1) ∧
    ((s.mark_scan_error).scan_error_count = s.scan_error_count + 1 ∧
      (s.mark_error p).error_count = s.error_count + 1 ∧
      (s.mark_skipped).skipped_count = s.skipped_count + 1 ∧
      (s.mark_duplicate p).duplicate_count = s.duplicate_count + 1 ∧
      (s.mark_exif_error p).exif_error_count = s.exif_error_count + 1 ∧
      (s.mark_copied len).copy_count = s.copy_count + 1 ∧
      (s.mark_copied len).copied_bytes = s.copied_bytes + len) ∧
    ((s.mark_error p).errored_files = s.errored_files ++ [p] ∧
      (s.mark_duplicate p).duplicate_files = s.duplicate_files ++ [p] ∧
      (s.mark_exif_error p).exif_errored_files = s.exif_errored_files ++ [p]) ∧
    (∀ t ∈ [s.mark_scan_error, s.mark_error p, s.mark_skipped,
            s.mark_duplicate p, s.mark_exif_error p, s.mark_copied len],
      s.errored_files <+: t.errored_files ∧
      s.duplicate_files <+: t.duplicate_files ∧
      s.exif_errored_files <+: t.exif_errored_files ∧
      s.scan_error_count ≤ t.scan_error_count ∧
      s.error_count ≤ t.error_count ∧
      s.skipped_count ≤ t.skipped_count ∧
      s.duplicate_count ≤ t.duplicate_count ∧
      s.exif_error_count ≤ t.exif_error_count ∧
      s.copy_count ≤ t.copy_count ∧
      s.copied_bytes ≤ t.copied_bytes ∧
      t.errored_files.length ≤ s.errored_files.length + 1 ∧
      t.duplicate_files.length ≤ s.duplicate_files.length + 1 ∧
      t.exif_errored_files.length ≤ s.exif_errored_files.length + 1) ∧
    (s.invariants →
      (s.mark_scan_error).invariants ∧ (s.mark_error p).invariants ∧
      (s.mark_skipped).invariants ∧ (s.mark_duplicate p).invariants ∧
      (s.mark_exif_error p).invariants ∧ (s.mark_copied len).invariants) := by
  refine ⟨⟨?_, ?_, ?_, ?_, ?_, ?_⟩, ⟨rfl, rfl, rfl, rfl, rfl, rfl, rfl⟩,
    ⟨rfl, rfl, rfl⟩, ?_, ?_⟩
  · simp [Summary.totalMarks, Summary.mark_scan_error]; omega
  · simp [Summary.totalMarks, Summary.mark_error]; omega
  · simp [Summary.totalMarks, Summary.mark_skipped]; omega
  · simp [Summary.totalMarks, Summary.mark_duplicate]; omega
  · simp [Summary.totalMarks, Summary.mark_exif_error]; omega
  · simp [Summary.totalMarks, Summary.mark_copied]; omega
  · intro t ht
    fin_cases ht <;>
      refine ⟨?_, ?_, ?_, ?_, ?_, ?_, ?_, ?_, ?_, ?_, ?_, ?_, ?_⟩ <;>
      simp [Summary.mark_scan_error, Summary.mark_error, Summary.mark_skipped,
        Summary.mark_duplicate, Summary.mark_exif_error, Summary.mark_copied]
  · intro hinv
    obtain ⟨h1, h2, h3⟩ := hinv
    refine ⟨?_, ?_, ?_, ?_, ?_, ?_⟩ <;>
      simp [Summary.invariants, Summary.mark_scan_error, Summary.mark_error,
        Summary.mark_skipped, Summary.mark_duplicate, Summary.mark_exif_error,
        Summary.mark_copied, List.length_append] <;>
      omega

/-- Witness for C8: the counter/list invariants survive a mark on a
fresh summary. -/
theorem marks_append_only_witness :
    (Summary.init.mark_error "x").invariants ∧
      (Summary.init.mark_copied 7).invariants :=
  ⟨((marks_append_only Summary.init "x" 7).2.2.2.2 ⟨rfl, rfl, rfl⟩).2.1,
   ((marks_append_only Summary.init "x" 7).2.2.2.2 ⟨rfl, rfl, rfl⟩).2.2.2.2.2⟩

end Photosort
